import Mathlib

/-!
Verification of the façade lighting energy calculator (src/external.py).

Numbers (irradiance, hours, energy) are modelled as rationals; calendar
months as `Fin 12` (0 stands for January, 11 for December), since every
month extracted from a date lies in 1..12.
-/

/-- A daily record as built by fetch_city_daily (lines 124-133): the month
of the date, daylight hours and night hours. -/
structure DailyRow where
  month : Fin 12
  daylight_h : ℚ
  night_h : ℚ
  deriving DecidableEq, Repr

/-- Line 132: night_h is computed as 24 - daylight_h for each day. -/
def mkDailyRow (m : Fin 12) (daylight : ℚ) : DailyRow :=
  ⟨m, daylight, 24 - daylight⟩

/-- An hourly record as built by fetch_city_hourly (lines 136-142): the
month of the timestamp and the irradiance GHI_Wm2. -/
structure HourlyRow where
  month : Fin 12
  ghi : ℚ
  deriving DecidableEq, Repr

/-- One output row of monthly_totals_daily: month and the two sums. -/
structure DailyAgg where
  month : Fin 12
  daylight_h : ℚ
  night_h : ℚ
  deriving DecidableEq, Repr

/-- One output row of monthly_lights_on_from_hourly: month and the number
of lit hours (sum of the 0/1 lights_on_h column). -/
structure GhiAgg where
  month : Fin 12
  lights_on_h : ℕ
  deriving DecidableEq, Repr

/-- Lines 144-150: group the daily rows by calendar month, sum the numeric
columns, and order the result by month number (pandas groupby sorts by the
key; sort_values("month") keeps that order). A month with no source row
produces no output row. -/
def monthly_totals_daily (rows : List DailyRow) : List DailyAgg :=
  ((List.finRange 12).filter (fun m => rows.any (fun r => r.month == m))).map
    (fun m =>
      ⟨m, ((rows.filter (fun r => r.month == m)).map DailyRow.daylight_h).sum,
          ((rows.filter (fun r => r.month == m)).map DailyRow.night_h).sum⟩)

/-- Lines 156-159: one step of the hysteresis loop body. `lights_on` is
the state before the hour, the result is the state after it. -/
def hysteresisStep (lights_on : Bool) (ghi on_thr off_thr : ℚ) : Bool :=
  if lights_on = false ∧ ghi < on_thr then true
  else if lights_on = true ∧ ghi > off_thr then false
  else lights_on

/-- Lines 155-160: the loop over the irradiance series, threading the
state and appending the post-hour state for every hour. -/
def lightsStates (on_thr off_thr : ℚ) : Bool → List ℚ → List Bool
  | _, [] => []
  | s, g :: gs =>
      let t := hysteresisStep s g on_thr off_thr
      t :: lightsStates on_thr off_thr t gs

/-- Lines 153-160: the derived boolean sequence, starting from
lights_on = False. -/
def deriveStates (ghis : List ℚ) (on_thr off_thr : ℚ) : List Bool :=
  lightsStates on_thr off_thr false ghis

/-- Lines 152-168: derive the hourly lighting states, pair them with their
months, group by month and sum the 0/1 flags; result ordered by month,
months absent from the input omitted. -/
def monthly_lights_on_from_hourly (rows : List HourlyRow) (on_thr off_thr : ℚ) :
    List GhiAgg :=
  let flagged := rows.zip (deriveStates (rows.map HourlyRow.ghi) on_thr off_thr)
  ((List.finRange 12).filter (fun m => rows.any (fun r => r.month == m))).map
    (fun m =>
      ⟨m, ((flagged.filter (fun p => p.1.month == m)).map
            (fun p => if p.2 then 1 else 0)).sum⟩)

/-- The energy formula of lines 177-178 (§4.3 of the spec):
lpd × facade_area × lit_hours × control_factor / 1000. -/
def energy_kWh (lpd facade_area lit_hours control_factor : ℚ) : ℚ :=
  lpd * facade_area * lit_hours * control_factor / 1000

/-- One row of the per-city monthly table returned by process_city. -/
structure CityMonthlyRow where
  month : Fin 12
  daylight_h : ℚ
  night_h : ℚ
  lights_on_h : ℚ
  lights_on_h_ghi : ℚ
  energy_night_kWh : ℚ
  energy_ghi_kWh : ℚ
  deriving DecidableEq, Repr

/-- Lines 170-179: aggregate the daily rows, set lights_on_h to night_h,
aggregate the hourly rows under the thresholds, inner-join the two tables
on month, and compute the two energy columns. -/
def process_city (daily : List DailyRow) (hourly : List HourlyRow)
    (on_thr off_thr lpd facade_area control_factor : ℚ) : List CityMonthlyRow :=
  let agg := monthly_totals_daily daily
  let ghi := monthly_lights_on_from_hourly hourly on_thr off_thr
  agg.flatMap (fun a =>
    (ghi.filter (fun g => g.month == a.month)).map (fun g =>
      ⟨a.month, a.daylight_h, a.night_h, a.night_h, (g.lights_on_h : ℚ),
       lpd * facade_area * a.night_h * control_factor / 1000,
       lpd * facade_area * (g.lights_on_h : ℚ) * control_factor / 1000⟩))

/-- Lines 147-149 and 165-167: the categorical month name attached to each
aggregate row (strftime of the first of the month). -/
def monthName (m : Fin 12) : String :=
  ["January", "February", "March", "April", "May", "June", "July",
   "August", "September", "October", "November", "December"].getD m.val ""

/-- Lines 253-256: when two cities are selected, the tables are merged on
the Month name column (pandas inner join: left rows in order, each paired
with every matching right row). -/
def merged (t1 t2 : List CityMonthlyRow) : List (CityMonthlyRow × CityMonthlyRow) :=
  t1.flatMap (fun r1 =>
    (t2.filter (fun r2 => monthName r2.month == monthName r1.month)).map
      (fun r2 => (r1, r2)))

/-- The two-state machine exactly as the spec words it (§4.1): starts OFF;
from OFF it switches ON exactly when irradiance < on_thr; from ON it
switches OFF exactly when irradiance > off_thr; otherwise it holds. -/
def specMachineStep (state : Bool) (g on_thr off_thr : ℚ) : Bool :=
  match state with
  | false => if g < on_thr then true else false
  | true => if g > off_thr then false else true

/-- The spec machine run over a series, emitting the post-hour state. -/
def specMachineRun (on_thr off_thr : ℚ) : Bool → List ℚ → List Bool
  | _, [] => []
  | s, g :: gs =>
      let t := specMachineStep s g on_thr off_thr
      t :: specMachineRun on_thr off_thr t gs

lemma hysteresisStep_eq_specMachineStep (s : Bool) (g on_thr off_thr : ℚ) :
    hysteresisStep s g on_thr off_thr = specMachineStep s g on_thr off_thr := by
  cases s <;> simp [hysteresisStep, specMachineStep]

lemma lightsStates_eq_specMachineRun (on_thr off_thr : ℚ) (s : Bool) (gs : List ℚ) :
    lightsStates on_thr off_thr s gs = specMachineRun on_thr off_thr s gs := by
  induction gs generalizing s with
  | nil => rfl
  | cons g gs ih =>
      simp only [lightsStates, specMachineRun, hysteresisStep_eq_specMachineStep]
      exact congrArg _ (ih _)

/-- C1: for every irradiance sequence and thresholds, the hysteresis
deriver produces exactly the output of the spec's two-state machine:
start OFF, switch OFF→ON iff irradiance < on_thr, switch ON→OFF iff
irradiance > off_thr, otherwise hold; each hour emits the post-hour
state. -/
theorem deriveStates_eq_specMachine (ghis : List ℚ) (on_thr off_thr : ℚ) :
    deriveStates ghis on_thr off_thr = specMachineRun on_thr off_thr false ghis :=
  lightsStates_eq_specMachineRun on_thr off_thr false ghis

lemma lightsStates_length (on_thr off_thr : ℚ) (s : Bool) (gs : List ℚ) :
    (lightsStates on_thr off_thr s gs).length = gs.length := by
  induction gs generalizing s with
  | nil => rfl
  | cons g gs ih => simp [lightsStates, ih]

/-- C8: the deriver output has the same length as the input, and the empty
input yields the empty output. -/
theorem deriveStates_length (ghis : List ℚ) (on_thr off_thr : ℚ) :
    (deriveStates ghis on_thr off_thr).length = ghis.length ∧
      deriveStates [] on_thr off_thr = [] :=
  ⟨lightsStates_length on_thr off_thr false ghis, rfl⟩

/-- C4: the spec's three concrete hysteresis test vectors, with
on_thr = 10 and off_thr = 50. -/
theorem deriveStates_test_vectors :
    deriveStates [100] 10 50 = [false] ∧
      deriveStates [5, 30, 30, 60] 10 50 = [true, true, true, false] ∧
      deriveStates [60, 5, 60] 10 50 = [false, true, false] := by
  refine ⟨?_, ?_, ?_⟩ <;> decide

/-- C9: the energy formula is linear in each of its four inputs
separately: doubling any one of lpd, facade_area, lit_hours or
control_factor doubles the result. -/
theorem energy_kWh_linear (lpd facade_area lit_hours control_factor : ℚ) :
    energy_kWh (2 * lpd) facade_area lit_hours control_factor =
        2 * energy_kWh lpd facade_area lit_hours control_factor ∧
      energy_kWh lpd (2 * facade_area) lit_hours control_factor =
        2 * energy_kWh lpd facade_area lit_hours control_factor ∧
      energy_kWh lpd facade_area (2 * lit_hours) control_factor =
        2 * energy_kWh lpd facade_area lit_hours control_factor ∧
      energy_kWh lpd facade_area lit_hours (2 * control_factor) =
        2 * energy_kWh lpd facade_area lit_hours control_factor := by
  refine ⟨?_, ?_, ?_, ?_⟩ <;> (unfold energy_kWh; ring)

/-- C5: with degenerate thresholds (on_thr ≥ off_thr) the deriver still
produces a full-length deterministic output; from OFF the < on_thr
comparison is decided first, and when on_thr = off_thr the previous state
matters only when the value equals the threshold exactly. -/
theorem hysteresis_degenerate_thresholds (on_thr off_thr : ℚ) (h : off_thr ≤ on_thr) :
    (∀ gs : List ℚ, (deriveStates gs on_thr off_thr).length = gs.length) ∧
      (∀ g : ℚ, g < on_thr → hysteresisStep false g on_thr off_thr = true) ∧
      (on_thr = off_thr → ∀ (s : Bool) (g : ℚ),
        hysteresisStep s g on_thr off_thr =
          if g < on_thr then true else if on_thr < g then false else s) := by
  refine ⟨fun gs => lightsStates_length _ _ _ _, fun g hg => ?_, fun he s g => ?_⟩
  · simp [hysteresisStep, hg]
  · subst he
    by_cases h1 : g < on_thr
    · cases s <;> simp [hysteresisStep, h1, asymm h1]
    · by_cases h2 : on_thr < g
      · cases s <;> simp [hysteresisStep, h1, h2]
      · cases s <;> simp [hysteresisStep, h1, h2]

/-- C5 witness: at on_thr = off_thr = 5 the OFF state with irradiance 3
switches ON. -/
theorem hysteresis_degenerate_thresholds_witness :
    hysteresisStep false 3 5 5 = true :=
  (hysteresis_degenerate_thresholds 5 5 (by norm_num)).2.1 3 (by norm_num)

/-- C2: every row of process_city carries energies given by the formula
lpd × facade_area × lit_hours × control_factor / 1000 applied to its own
lit-hours column, for both strategies; and at facade_area 1000,
lpd 1.6 = 16/10, control_factor 0.8 = 8/10 and 300 lit hours the formula
gives exactly 384 kWh. -/
theorem process_city_energy (daily : List DailyRow) (hourly : List HourlyRow)
    (on_thr off_thr lpd facade_area control_factor : ℚ) :
    (∀ r ∈ process_city daily hourly on_thr off_thr lpd facade_area control_factor,
        r.energy_night_kWh = energy_kWh lpd facade_area r.lights_on_h control_factor ∧
          r.energy_ghi_kWh = energy_kWh lpd facade_area r.lights_on_h_ghi control_factor) ∧
      energy_kWh (16/10) 1000 300 (8/10) = 384 := by
  constructor
  · intro r hr
    simp only [process_city, List.mem_flatMap, List.mem_map, List.mem_filter] at hr
    obtain ⟨a, _, g, _, rfl⟩ := hr
    exact ⟨rfl, rfl⟩
  · norm_num [energy_kWh]

/-- C2 witness: a one-day, one-hour January input; the resulting row has
night energy 448/25 = 17.92 kWh, matching the formula at its 14 night
hours. -/
theorem process_city_energy_witness :
    (⟨0, 10, 14, 14, 0, 448/25, 0⟩ : CityMonthlyRow) ∈
        process_city [mkDailyRow 0 10] [(⟨0, 100⟩ : HourlyRow)]
          10 50 (16/10) 1000 (8/10) ∧
      (448/25 : ℚ) = energy_kWh (16/10) 1000 14 (8/10) := by
  have hd : monthly_totals_daily [mkDailyRow 0 10] = [⟨0, 10, 14⟩] := by
    norm_num [monthly_totals_daily, mkDailyRow, List.finRange]
    all_goals decide
  have hh : monthly_lights_on_from_hourly [(⟨0, 100⟩ : HourlyRow)] 10 50 = [⟨0, 0⟩] := by
    norm_num [monthly_lights_on_from_hourly, deriveStates, lightsStates,
      hysteresisStep, List.finRange]
    all_goals decide
  have hrow : process_city [mkDailyRow 0 10] [(⟨0, 100⟩ : HourlyRow)]
      10 50 (16/10) 1000 (8/10) = [⟨0, 10, 14, 14, 0, 448/25, 0⟩] := by
    simp only [process_city, hd, hh]
    norm_num [List.flatMap]
  have hm : (⟨0, 10, 14, 14, 0, 448/25, 0⟩ : CityMonthlyRow) ∈
      process_city [mkDailyRow 0 10] [(⟨0, 100⟩ : HourlyRow)]
        10 50 (16/10) 1000 (8/10) := by
    rw [hrow]; exact List.mem_singleton.mpr rfl
  exact ⟨hm,
    ((process_city_energy [mkDailyRow 0 10] [(⟨0, 100⟩ : HourlyRow)]
      10 50 (16/10) 1000 (8/10)).1 _ hm).1⟩

lemma sum_filter_eq_sum_of_zero {p : Fin 12 → Bool} {g : Fin 12 → ℚ}
    (l : List (Fin 12)) (h : ∀ m, p m = false → g m = 0) :
    ((l.filter p).map g).sum = (l.map g).sum := by
  induction l with
  | nil => rfl
  | cons x l ih =>
      cases hx : p x <;> simp [List.filter_cons, hx, ih, h x]

lemma group_sums_eq_total (f : DailyRow → ℚ) (rows : List DailyRow) :
    ((List.finRange 12).map
        (fun m => ((rows.filter (fun x => x.month == m)).map f).sum)).sum
      = (rows.map f).sum := by
  induction rows with
  | nil => simp
  | cons r rows ih =>
      have hsplit : ∀ m : Fin 12,
          (((r :: rows).filter (fun x => x.month == m)).map f).sum
            = (if r.month = m then f r else 0)
              + ((rows.filter (fun x => x.month == m)).map f).sum := by
        intro m
        by_cases hm : r.month = m <;> simp [List.filter_cons, hm]
      simp only [hsplit, List.sum_map_add, ih, List.map_cons, List.sum_cons]
      have hone : ((List.finRange 12).map
          (fun m => if r.month = m then f r else 0)).sum = f r := by
        rw [← Fin.sum_univ_def, Finset.sum_ite_eq Finset.univ r.month (fun _ => f r)]
        simp
      rw [hone]

lemma month_filter_nil {rows : List DailyRow} {m : Fin 12}
    (h : rows.any (fun r => r.month == m) = false) :
    rows.filter (fun r => r.month == m) = [] := by
  rw [List.filter_eq_nil_iff]
  intro r hr
  simpa using List.any_eq_false.mp h r hr

lemma monthly_totals_field_total (f : DailyRow → ℚ) (sel : DailyAgg → ℚ)
    (hsel : ∀ (m : Fin 12) (rows : List DailyRow),
      sel ⟨m, ((rows.filter (fun r => r.month == m)).map
        DailyRow.daylight_h).sum, ((rows.filter (fun r => r.month == m)).map
        DailyRow.night_h).sum⟩
      = ((rows.filter (fun r => r.month == m)).map f).sum)
    (rows : List DailyRow) :
    ((monthly_totals_daily rows).map sel).sum = (rows.map f).sum := by
  unfold monthly_totals_daily
  rw [List.map_map]
  have hcomp : (sel ∘ fun m =>
      (⟨m, ((rows.filter (fun r => r.month == m)).map DailyRow.daylight_h).sum,
        ((rows.filter (fun r => r.month == m)).map DailyRow.night_h).sum⟩ : DailyAgg))
      = fun m => ((rows.filter (fun r => r.month == m)).map f).sum := by
    funext m
    exact hsel m rows
  rw [hcomp, sum_filter_eq_sum_of_zero _ (fun m hm => by rw [month_filter_nil hm]; rfl)]
  exact group_sums_eq_total f rows

lemma daylight_night_total (rows : List DailyRow)
    (h : ∀ r ∈ rows, r.night_h = 24 - r.daylight_h) :
    (rows.map DailyRow.daylight_h).sum + (rows.map DailyRow.night_h).sum
      = 24 * rows.length := by
  induction rows with
  | nil => simp
  | cons r rows ih =>
      have hr : r.night_h = 24 - r.daylight_h := h r (by simp)
      have ih2 := ih (fun x hx => h x (by simp [hx]))
      simp only [List.map_cons, List.sum_cons, List.length_cons]
      rw [hr]
      push_cast
      linarith [ih2]

/-- C6: when every day's night hours are 24 minus its daylight hours (as
fetch_city_daily computes them), the monthly daylight sums plus the
monthly night sums add up to 24 hours per input day. -/
theorem monthly_totals_hours_balance (rows : List DailyRow)
    (h : ∀ r ∈ rows, r.night_h = 24 - r.daylight_h) :
    ((monthly_totals_daily rows).map DailyAgg.daylight_h).sum
        + ((monthly_totals_daily rows).map DailyAgg.night_h).sum
      = 24 * rows.length := by
  rw [monthly_totals_field_total DailyRow.daylight_h DailyAgg.daylight_h
      (fun _ _ => rfl) rows,
    monthly_totals_field_total DailyRow.night_h DailyAgg.night_h
      (fun _ _ => rfl) rows]
  exact daylight_night_total rows h

/-- C6 witness: two days, one in January and one in June, with 10 and 12
daylight hours; the monthly sums balance to 48 = 24 × 2 hours. -/
theorem monthly_totals_hours_balance_witness :
    ((monthly_totals_daily [mkDailyRow 0 10, mkDailyRow 5 12]).map
          DailyAgg.daylight_h).sum
        + ((monthly_totals_daily [mkDailyRow 0 10, mkDailyRow 5 12]).map
          DailyAgg.night_h).sum
      = 24 * (([mkDailyRow 0 10, mkDailyRow 5 12] : List DailyRow).length : ℚ) :=
  monthly_totals_hours_balance [mkDailyRow 0 10, mkDailyRow 5 12]
    (by intro r hr; fin_cases hr <;> rfl)

lemma monthly_totals_daily_map_month (rows : List DailyRow) :
    (monthly_totals_daily rows).map DailyAgg.month
      = (List.finRange 12).filter (fun m => rows.any (fun r => r.month == m)) := by
  unfold monthly_totals_daily
  simp [List.map_map, Function.comp_def]

lemma monthly_lights_on_map_month (rows : List HourlyRow) (on_thr off_thr : ℚ) :
    (monthly_lights_on_from_hourly rows on_thr off_thr).map GhiAgg.month
      = (List.finRange 12).filter (fun m => rows.any (fun r => r.month == m)) := by
  unfold monthly_lights_on_from_hourly
  simp [List.map_map, Function.comp_def]

/-- C3: a daily (and an hourly) input with a record in every calendar
month yields exactly 12 aggregate rows whose months read January through
December in order, whatever the input order; a month with no record in the
input yields no aggregate row at all. -/
theorem monthly_agg_month_rows (drows : List DailyRow) (hrows : List HourlyRow)
    (on_thr off_thr : ℚ) :
    ((∀ m : Fin 12, drows.any (fun r => r.month == m) = true) →
        (monthly_totals_daily drows).map DailyAgg.month = List.finRange 12 ∧
          (monthly_totals_daily drows).length = 12) ∧
      (∀ m : Fin 12, drows.any (fun r => r.month == m) = false →
        ∀ a ∈ monthly_totals_daily drows, a.month ≠ m) ∧
      ((∀ m : Fin 12, hrows.any (fun r => r.month == m) = true) →
        (monthly_lights_on_from_hourly hrows on_thr off_thr).map GhiAgg.month
            = List.finRange 12 ∧
          (monthly_lights_on_from_hourly hrows on_thr off_thr).length = 12) ∧
      (∀ m : Fin 12, hrows.any (fun r => r.month == m) = false →
        ∀ a ∈ monthly_lights_on_from_hourly hrows on_thr off_thr,
          a.month ≠ m) := by
  refine ⟨fun hfull => ?_, fun m hm a ha => ?_, fun hfull => ?_, fun m hm a ha => ?_⟩
  · have hmap : (monthly_totals_daily drows).map DailyAgg.month = List.finRange 12 := by
      rw [monthly_totals_daily_map_month]
      exact List.filter_eq_self.mpr (fun a _ => hfull a)
    refine ⟨hmap, ?_⟩
    have := congrArg List.length hmap
    simpa using this
  · intro hcontra
    have hmem : a.month ∈ (monthly_totals_daily drows).map DailyAgg.month :=
      List.mem_map_of_mem DailyAgg.month ha
    rw [monthly_totals_daily_map_month, List.mem_filter] at hmem
    rw [hcontra] at hmem
    rw [hm] at hmem
    exact Bool.false_ne_true hmem.2
  · have hmap : (monthly_lights_on_from_hourly hrows on_thr off_thr).map GhiAgg.month
        = List.finRange 12 := by
      rw [monthly_lights_on_map_month]
      exact List.filter_eq_self.mpr (fun a _ => hfull a)
    refine ⟨hmap, ?_⟩
    have := congrArg List.length hmap
    simpa using this
  · intro hcontra
    have hmem : a.month ∈
        (monthly_lights_on_from_hourly hrows on_thr off_thr).map GhiAgg.month :=
      List.mem_map_of_mem GhiAgg.month ha
    rw [monthly_lights_on_map_month, List.mem_filter] at hmem
    rw [hcontra] at hmem
    rw [hm] at hmem
    exact Bool.false_ne_true hmem.2

/-- C3 witness: a full year of daily and hourly records, one per month,
presented in reverse order; both aggregates list months January through
December. -/
theorem monthly_agg_month_rows_witness :
    (monthly_totals_daily
          ((List.finRange 12).reverse.map (fun m => mkDailyRow m 10))).map
        DailyAgg.month = List.finRange 12 ∧
      (monthly_lights_on_from_hourly
          ((List.finRange 12).reverse.map (fun m => (⟨m, 100⟩ : HourlyRow))) 10 50).map
        GhiAgg.month = List.finRange 12 :=
  ⟨((monthly_agg_month_rows
      ((List.finRange 12).reverse.map (fun m => mkDailyRow m 10))
      ((List.finRange 12).reverse.map (fun m => (⟨m, 100⟩ : HourlyRow)))
      10 50).1 (by decide)).1,
   ((monthly_agg_month_rows
      ((List.finRange 12).reverse.map (fun m => mkDailyRow m 10))
      ((List.finRange 12).reverse.map (fun m => (⟨m, 100⟩ : HourlyRow)))
      10 50).2.2.1 (by decide)).1⟩

lemma lightsStates_zero_on (off_thr : ℚ) (gs : List ℚ) (h : ∀ g ∈ gs, 0 ≤ g) :
    lightsStates 0 off_thr false gs = List.replicate gs.length false := by
  induction gs with
  | nil => rfl
  | cons g gs ih =>
      have h0 : ¬ g < (0 : ℚ) := not_lt.mpr (h g (by simp))
      simp [lightsStates, hysteresisStep, h0, List.replicate_succ,
        ih (fun x hx => h x (by simp [hx]))]

lemma monthly_lights_on_zero (rows : List HourlyRow) (off_thr : ℚ)
    (h : ∀ r ∈ rows, 0 ≤ r.ghi) :
    ∀ a ∈ monthly_lights_on_from_hourly rows 0 off_thr, a.lights_on_h = 0 := by
  intro a ha
  unfold monthly_lights_on_from_hourly at ha
  simp only [List.mem_map] at ha
  obtain ⟨m, _, rfl⟩ := ha
  refine List.sum_eq_zero ?_
  intro x hx
  simp only [List.mem_map] at hx
  obtain ⟨p, hp, rfl⟩ := hx
  have hzip : p ∈ rows.zip (deriveStates (rows.map HourlyRow.ghi) 0 off_thr) :=
    (List.mem_filter.mp hp).1
  have hflag : p.2 ∈ deriveStates (rows.map HourlyRow.ghi) 0 off_thr :=
    (List.of_mem_zip hzip).2
  rw [deriveStates, lightsStates_zero_on off_thr _ ?hpos] at hflag
  case hpos =>
    intro g hg
    simp only [List.mem_map] at hg
    obtain ⟨r, hr, rfl⟩ := hg
    exact h r hr
  rw [List.eq_of_mem_replicate hflag]
  rfl

/-- C10: with on_thr = 0 and nonnegative irradiance everywhere, the strict
comparison irradiance < 0 never fires: the derived state is false at every
hour, every monthly GHI lit-hours figure is 0, and the GHI-strategy energy
of every process_city row is 0. -/
theorem ghi_on_threshold_zero_all_off (rows : List HourlyRow)
    (daily : List DailyRow) (off_thr lpd facade_area control_factor : ℚ)
    (h : ∀ r ∈ rows, 0 ≤ r.ghi) :
    deriveStates (rows.map HourlyRow.ghi) 0 off_thr
        = List.replicate rows.length false ∧
      (∀ a ∈ monthly_lights_on_from_hourly rows 0 off_thr, a.lights_on_h = 0) ∧
      (∀ r ∈ process_city daily rows 0 off_thr lpd facade_area control_factor,
        r.lights_on_h_ghi = 0 ∧ r.energy_ghi_kWh = 0) := by
  refine ⟨?_, monthly_lights_on_zero rows off_thr h, ?_⟩
  · rw [deriveStates, lightsStates_zero_on off_thr _ ?hpos, List.length_map]
    case hpos =>
      intro g hg
      simp only [List.mem_map] at hg
      obtain ⟨r, hr, rfl⟩ := hg
      exact h r hr
  · intro r hr
    simp only [process_city, List.mem_flatMap, List.mem_map, List.mem_filter] at hr
    obtain ⟨a, _, g, hg, rfl⟩ := hr
    have hz : g.lights_on_h = 0 := monthly_lights_on_zero rows off_thr h g hg.1
    constructor
    · simp [hz]
    · simp [hz]

/-- C10 witness: a single January hour with irradiance 5 and on_thr = 0
derives the all-off sequence. -/
theorem ghi_on_threshold_zero_all_off_witness :
    deriveStates ([(⟨0, 5⟩ : HourlyRow)].map HourlyRow.ghi) 0 50
      = List.replicate ([(⟨0, 5⟩ : HourlyRow)].length) false :=
  (ghi_on_threshold_zero_all_off [(⟨0, 5⟩ : HourlyRow)] [] 50 1 1 1
    (by intro r hr; simp only [List.mem_singleton] at hr; rw [hr]; norm_num)).1

lemma monthName_beq : ∀ a b : Fin 12, (monthName a == monthName b) = (a == b) := by
  decide

lemma merged_eq_join_on_month (t1 t2 : List CityMonthlyRow) :
    merged t1 t2 = t1.flatMap (fun r1 =>
      (t2.filter (fun r2 => r2.month == r1.month)).map (fun r2 => (r1, r2))) := by
  unfold merged
  refine congrArg _ (funext fun r1 => ?_)
  rw [List.filter_congr (fun x _ => monthName_beq x.month r1.month)]

lemma filter_month_map_of_nodup (t : List CityMonthlyRow)
    (hn : (t.map CityMonthlyRow.month).Nodup) (m : Fin 12) :
    (t.filter (fun r => r.month == m)).map CityMonthlyRow.month
      = if t.any (fun r => r.month == m) then [m] else [] := by
  induction t with
  | nil => simp
  | cons x t ih =>
      simp only [List.map_cons, List.nodup_cons] at hn
      by_cases hx : x.month = m
      · have hnil : t.filter (fun r => r.month == m) = [] := by
          rw [List.filter_eq_nil_iff]
          intro r hr
          simp only [beq_iff_eq]
          intro he
          exact hn.1 (by rw [hx, ← he]; exact List.mem_map_of_mem _ hr)
        simp [List.filter_cons, List.any_cons, hx, hnil]
      · have := ih hn.2
        simp only [List.filter_cons, List.any_cons, beq_iff_eq, hx]
        simpa [hx] using this

lemma merged_map_months (t1 t2 : List CityMonthlyRow)
    (h2 : (t2.map CityMonthlyRow.month).Nodup) :
    (merged t1 t2).map (fun p => p.1.month)
      = (t1.map CityMonthlyRow.month).filter
          (fun m => t2.any (fun r => r.month == m)) := by
  rw [merged_eq_join_on_month]
  induction t1 with
  | nil => rfl
  | cons r1 t1 ih =>
      simp only [List.flatMap_cons, List.map_append, List.map_cons,
        List.filter_cons, List.map_map]
      rw [ih]
      have hmap : ((t2.filter (fun r2 => r2.month == r1.month)).map
          ((fun p : CityMonthlyRow × CityMonthlyRow => p.1.month)
            ∘ fun r2 => (r1, r2)))
          = (t2.filter (fun r2 => r2.month == r1.month)).map
              CityMonthlyRow.month := by
        refine List.map_congr_left (fun r2 hr2 => ?_)
        have : r2.month = r1.month := by
          have := (List.mem_filter.mp hr2).2
          simpa using this
        simp [Function.comp, this]
      rw [hmap, filter_month_map_of_nodup t2 h2 r1.month]
      by_cases hany : t2.any (fun r => r.month == r1.month)
      · simp [hany]
      · simp [hany]

/-- C7: under the pipeline invariant that each city's monthly table has no
repeated month, the two-city merge is an inner join on calendar month: its
rows, in order, are exactly the months of the first table that the second
table also has (hence exactly one row per common month, with no
duplicates), and every merged row carries one original row of each table
with equal months. -/
theorem merged_inner_join (t1 t2 : List CityMonthlyRow)
    (h1 : (t1.map CityMonthlyRow.month).Nodup)
    (h2 : (t2.map CityMonthlyRow.month).Nodup) :
    (merged t1 t2).map (fun p => p.1.month)
        = (t1.map CityMonthlyRow.month).filter
            (fun m => t2.any (fun r => r.month == m)) ∧
      ((merged t1 t2).map (fun p => p.1.month)).Nodup ∧
      ∀ p ∈ merged t1 t2, p.1 ∈ t1 ∧ p.2 ∈ t2 ∧ p.1.month = p.2.month := by
  refine ⟨merged_map_months t1 t2 h2, ?_, ?_⟩
  · rw [merged_map_months t1 t2 h2]
    exact h1.filter _
  · intro p hp
    rw [merged_eq_join_on_month] at hp
    simp only [List.mem_flatMap, List.mem_map, List.mem_filter, beq_iff_eq] at hp
    obtain ⟨r1, hr1, r2, ⟨hr2, hmon⟩, rfl⟩ := hp
    exact ⟨hr1, hr2, hmon.symm⟩

/-- C7 witness: two single-row January tables; the merge consists of the
one common month. -/
theorem merged_inner_join_witness :
    (merged [(⟨0, 1, 2, 3, 4, 5, 6⟩ : CityMonthlyRow)]
          [(⟨0, 7, 8, 9, 10, 11, 12⟩ : CityMonthlyRow)]).map (fun p => p.1.month)
      = ([(⟨0, 1, 2, 3, 4, 5, 6⟩ : CityMonthlyRow)].map
            CityMonthlyRow.month).filter
          (fun m => [(⟨0, 7, 8, 9, 10, 11, 12⟩ : CityMonthlyRow)].any
            (fun r => r.month == m)) :=
  (merged_inner_join [(⟨0, 1, 2, 3, 4, 5, 6⟩ : CityMonthlyRow)]
    [(⟨0, 7, 8, 9, 10, 11, 12⟩ : CityMonthlyRow)] (by simp) (by simp)).1
